import Mathlib

/-!
Shallow embedding of `src/infra/github-linguist/linguist_wrapper.py`
(class `LinguistWrapper`), the Archive Language Analyzer of the repository.

Pure parts of the Python code (project-root detection, newline counting,
percentage aggregation) become Lean functions; the effectful pipeline
`analyze_zip` becomes a function of an explicit environment describing the
outcomes of the external interactions (filesystem, `zipfile`, `git`,
the linguist subprocess, `json.loads`), returning the result together with
a trace of temporary-directory events.  Python `float` arithmetic in the
percentage computation is modelled by exact rationals, with `round(x, 2)`
modelled as round-half-to-even at two decimal places.
-/

namespace LinguistWrapper

/-- Kind of a top-level entry of the extraction directory, as seen by
`Path.is_dir` / `Path.is_file`; `other` covers entries that are neither
(e.g. a broken symlink). -/
inductive EntryKind where
  | dir
  | file
  | other
  deriving DecidableEq, Repr

/-- A top-level entry of the extraction directory: its name and kind. -/
structure Entry where
  name : String
  kind : EntryKind
  deriving DecidableEq, Repr

/-- Result of `_detect_project_root`: either the extraction directory itself
or a single top-level subdirectory. -/
inductive RootChoice where
  | extractionDir
  | subdirectory (e : Entry)
  deriving DecidableEq, Repr

/-- Python: `entries = [p for p in extract_dir.iterdir() if p.name != "__MACOSX"]`. -/
def nonMacosxEntries (entries : List Entry) : List Entry :=
  entries.filter (fun p => p.name ≠ "__MACOSX")

/-- Python: `subdirs = [p for p in entries if p.is_dir()]`. -/
def topSubdirs (entries : List Entry) : List Entry :=
  (nonMacosxEntries entries).filter (fun p => p.kind = EntryKind.dir)

/-- Python: `files = [p for p in entries if p.is_file()]`. -/
def topFiles (entries : List Entry) : List Entry :=
  (nonMacosxEntries entries).filter (fun p => p.kind = EntryKind.file)

/-- Model of `_detect_project_root`:
`return subdirs[0] if len(subdirs) == 1 and not files else extract_dir`. -/
def detect_project_root (entries : List Entry) : RootChoice :=
  match topSubdirs entries, topFiles entries with
  | [d], [] => RootChoice.subdirectory d
  | _, _ => RootChoice.extractionDir

/-- Outcome of opening one path in binary mode for `_count_lines`:
either the file's bytes, or one of the three caught exceptions. -/
inductive FileAccess where
  | content (bytes : List Nat)
  | missing
  | directory
  | permissionDenied
  deriving DecidableEq, Repr

/-- The chunk size `1 << 20` (1 MiB) used by `_count_lines`. -/
def CHUNK : Nat := 1 <<< 20

/-- The successive chunks returned by `iter(lambda: f.read(n), b"")`:
each `f.read(n)` yields the next at-most-`n` bytes, until an empty read.
The recursion is paced by a fuel argument; since every read of a non-empty
rest consumes at least one byte, the remaining length is enough fuel.
(`f.read(0)` returns `b""` at once, so chunk size 0 yields no chunks.) -/
def chunksOfAux (n : Nat) : Nat → List α → List (List α)
  | 0, _ => []
  | _, [] => []
  | fuel + 1, a :: t =>
    if n = 0 then []
    else (a :: t).take n :: chunksOfAux n fuel ((a :: t).drop n)

/-- The list of chunks produced by the 1-MiB read loop of `_count_lines`,
for chunk size `n` over content `l`. -/
def chunksOf (n : Nat) (l : List α) : List (List α) :=
  chunksOfAux n l.length l

/-- Model of `_count_lines`: sum of `chunk.count(b"\n")` over 1 MiB chunks of the
file read in binary mode; the caught exceptions contribute 0. -/
def count_lines (fa : FileAccess) : Nat :=
  match fa with
  | FileAccess.content bytes => ((chunksOf CHUNK bytes).map (fun c => c.count 10)).sum
  | FileAccess.missing => 0
  | FileAccess.directory => 0
  | FileAccess.permissionDenied => 0

/-- One value of the parsed linguist breakdown JSON: `info.get("size", 0)`
and `info.get("files", [])` read these optional fields. -/
structure LangInfo where
  size : Option Nat
  files : Option (List String)
  deriving DecidableEq, Repr

/-- The parsed breakdown: a mapping (in insertion order, as a Python dict)
from language name to its info. -/
abbrev Report := List (String × LangInfo)

/-- One entry of the final result: `{"percent": ..., "lines": ...}`. -/
structure LangStat where
  percent : ℚ
  lines : Nat
  deriving DecidableEq, Repr

/-- Python's round-half-to-even of a rational to an integer
(the tie-breaking used by `round`). -/
def roundHalfEven (q : ℚ) : ℤ :=
  if q - (⌊q⌋ : ℚ) < 1/2 then ⌊q⌋
  else if 1/2 < q - (⌊q⌋ : ℚ) then ⌊q⌋ + 1
  else if 2 ∣ ⌊q⌋ then ⌊q⌋ else ⌊q⌋ + 1

/-- Model of `round(q, 2)`: round to two decimal places, half to even. -/
def round2 (q : ℚ) : ℚ :=
  (roundHalfEven (q * 100) : ℚ) / 100

/-- Python: `total_bytes = sum(item.get("size", 0) for item in breakdown_data.values()) or 1`:
the sum of the reported sizes, replaced by 1 when it is 0. -/
def totalOr1 (report : Report) : Nat :=
  let s := (report.map (fun p => p.2.size.getD 0)).sum
  if s = 0 then 1 else s

/-- The per-language statistic built by the loop body of
`_collect_language_stats`: lines are counted over the attributed files via
the filesystem view `fs`, and the percentage is
`round(info.get("size", 0) * 100.0 / total_bytes, 2)`. -/
def statOf (fs : String → FileAccess) (report : Report)
    (entry : String × LangInfo) : String × LangStat :=
  (entry.1,
   { percent := round2 (((entry.2.size.getD 0 : ℚ)) * 100 / (totalOr1 report : ℚ)),
     lines := ((entry.2.files.getD []).map (fun f => count_lines (fs f))).sum })

/-- Errors raised by the pipeline, mirroring the Python exception kinds. -/
inductive AnalyzeError where
  | fileNotFound (path : String)
  | badZipFile
  | calledProcessError
  | jsonDecodeError
  | runtimeError (msg : String)
  deriving DecidableEq, Repr

/-- Model of `_collect_language_stats` after the breakdown has been obtained:
raise `RuntimeError("github-linguist returned empty result")` on an empty
breakdown, otherwise build the stats mapping. -/
def collect_language_stats (fs : String → FileAccess) (report : Report) :
    Except AnalyzeError (List (String × LangStat)) :=
  if report.isEmpty then
    Except.error (AnalyzeError.runtimeError "github-linguist returned empty result")
  else
    Except.ok (report.map (statOf fs report))

/-- Result of `subprocess.run(cmd, ..., capture_output=True, text=True, check=False)`. -/
structure ProcResult where
  returncode : Int
  stdout : String
  stderr : String
  deriving DecidableEq, Repr

/-- Model of `_execute_linguist`: in both modes (local command and docker) the outcome
is the captured stdout, or a `RuntimeError` carrying the exit code and the
captured stderr when the exit code is non-zero. -/
def execute_linguist (useDocker : Bool) (r : ProcResult) : Except AnalyzeError String :=
  let _ := useDocker
  if r.returncode ≠ 0 then
    Except.error (AnalyzeError.runtimeError
      ("github-linguist failed with code " ++ toString r.returncode ++ ": " ++ r.stderr))
  else
    Except.ok r.stdout

/-- Model of `_run_linguist_breakdown`: execute linguist and `json.loads` the output;
`parse` models `json.loads` restricted to the expected shape, returning
`none` when the output does not decode to such a mapping. -/
def run_linguist_breakdown (parse : String → Option Report) (useDocker : Bool)
    (r : ProcResult) : Except AnalyzeError Report :=
  match execute_linguist useDocker r with
  | Except.error e => Except.error e
  | Except.ok out =>
    match parse out with
    | none => Except.error AnalyzeError.jsonDecodeError
    | some rep => Except.ok rep

/-- The classifier-facing tail of the pipeline: run the breakdown, validate
it and aggregate (`_collect_language_stats` with its inner call unfolded). -/
def validate_and_aggregate (fs : String → FileAccess) (parse : String → Option Report)
    (useDocker : Bool) (r : ProcResult) : Except AnalyzeError (List (String × LangStat)) :=
  match run_linguist_breakdown parse useDocker r with
  | Except.error e => Except.error e
  | Except.ok rep => collect_language_stats fs rep

/-- Temporary-directory events observable from `analyze_zip`. -/
inductive Event where
  | tmpdirCreated
  | tmpdirRemoved
  deriving DecidableEq, Repr

/-- Environment of one `analyze_zip` invocation: outcomes of every external
interaction the pipeline performs. -/
structure Env where
  zipPath : String
  zipIsFile : Bool
  zipValid : Bool
  entries : List Entry
  gitOk : Bool
  proc : ProcResult
  parse : String → Option Report
  fs : String → FileAccess
  useDocker : Bool

/-- Model of `analyze_zip`: check the path, then inside
`with tempfile.TemporaryDirectory()` extract, detect the root, bootstrap
git and collect statistics.  The second component is the trace of
temporary-directory events; the `with` block removes the directory on
every exit path, normal or exceptional. -/
def analyze_zip (env : Env) : Except AnalyzeError (List (String × LangStat)) × List Event :=
  if ¬ env.zipIsFile then
    (Except.error (AnalyzeError.fileNotFound ("File not found: " ++ env.zipPath)), [])
  else
    let body : Except AnalyzeError (List (String × LangStat)) :=
      if ¬ env.zipValid then
        Except.error AnalyzeError.badZipFile
      else
        let _root := detect_project_root env.entries
        if ¬ env.gitOk then
          Except.error AnalyzeError.calledProcessError
        else
          validate_and_aggregate env.fs env.parse env.useDocker env.proc
    (body, [Event.tmpdirCreated, Event.tmpdirRemoved])

/-! ### Helper lemmas -/

/-- With positive chunk size and enough fuel, summing an element count over
the chunks gives the count over the whole content. -/
theorem chunksOfAux_sum_count [DecidableEq α] (n : Nat) (hn : n ≠ 0) (x : α) :
    ∀ (fuel : Nat) (l : List α), l.length ≤ fuel →
      ((chunksOfAux n fuel l).map (fun c => c.count x)).sum = l.count x := by
  intro fuel
  induction fuel with
  | zero =>
    intro l hl
    rw [Nat.le_zero, List.length_eq_zero] at hl
    subst hl
    rfl
  | succ fuel ih =>
    intro l hl
    match l with
    | [] => rfl
    | a :: t =>
      have hdrop : ((a :: t).drop n).length ≤ fuel := by
        simp only [List.length_drop, List.length_cons]
        simp only [List.length_cons] at hl
        omega
      simp only [chunksOfAux, if_neg hn, List.map_cons, List.sum_cons, ih _ hdrop]
      rw [← List.count_append, List.take_append_drop]

/-- Chunked counting agrees with plain counting, for every positive chunk
size — in particular whether or not the length is a multiple of the size. -/
theorem chunksOf_sum_count [DecidableEq α] (n : Nat) (hn : n ≠ 0) (x : α) (l : List α) :
    ((chunksOf n l).map (fun c => c.count x)).sum = l.count x :=
  chunksOfAux_sum_count n hn x l.length l le_rfl

/-- `roundHalfEven` moves its argument by at most 1/2. -/
theorem abs_roundHalfEven_sub_le (q : ℚ) : |(roundHalfEven q : ℚ) - q| ≤ 1/2 := by
  have hfl : (⌊q⌋ : ℚ) ≤ q := Int.floor_le q
  have hfu : q < ⌊q⌋ + 1 := Int.lt_floor_add_one q
  unfold roundHalfEven
  split
  · next h =>
    rw [abs_sub_comm, abs_of_nonneg (by linarith)]
    linarith
  · next h =>
    push_neg at h
    split
    · next h' =>
      push_cast
      rw [abs_of_nonneg (by linarith)]
      linarith
    · next h' =>
      push_neg at h'
      have hr : q - (⌊q⌋ : ℚ) = 1/2 := le_antisymm h' h
      split
      · rw [abs_sub_comm, abs_of_nonneg (by linarith)]
        linarith
      · push_cast
        rw [abs_of_nonneg (by linarith)]
        linarith

/-- `roundHalfEven` of a nonnegative rational is nonnegative. -/
theorem roundHalfEven_nonneg (q : ℚ) (hq : 0 ≤ q) : 0 ≤ roundHalfEven q := by
  have h0 : 0 ≤ ⌊q⌋ := Int.floor_nonneg.2 hq
  unfold roundHalfEven
  split
  · exact h0
  · split
    · omega
    · split
      · exact h0
      · omega

/-- `roundHalfEven` does not exceed an integer bound of its argument. -/
theorem roundHalfEven_le (q : ℚ) (m : ℤ) (hq : q ≤ (m : ℚ)) : roundHalfEven q ≤ m := by
  have hfm : ⌊q⌋ ≤ m := by
    have := Int.floor_le_floor hq
    rwa [Int.floor_intCast] at this
  have hlt : ¬ q - (⌊q⌋ : ℚ) < 1/2 → ⌊q⌋ + 1 ≤ m := by
    intro hr
    push_neg at hr
    have h1 : (⌊q⌋ : ℚ) < q := by linarith
    have h2 : ⌊q⌋ < m := by
      have : (⌊q⌋ : ℚ) < (m : ℚ) := lt_of_lt_of_le h1 hq
      exact_mod_cast this
    omega
  unfold roundHalfEven
  split
  · exact hfm
  · next h =>
    split
    · exact hlt h
    · split
      · exact hfm
      · exact hlt h

/-- `round2` moves its argument by at most 1/200 (half of the last kept
decimal place). -/
theorem abs_round2_sub_le (q : ℚ) : |round2 q - q| ≤ 1/200 := by
  have h := abs_roundHalfEven_sub_le (q * 100)
  unfold round2
  rw [show (roundHalfEven (q * 100) : ℚ) / 100 - q
      = ((roundHalfEven (q * 100) : ℚ) - q * 100) / 100 by ring]
  rw [abs_div, show |(100:ℚ)| = 100 from abs_of_pos (by norm_num)]
  linarith

/-- `round2` of a nonnegative rational is nonnegative. -/
theorem round2_nonneg (q : ℚ) (hq : 0 ≤ q) : 0 ≤ round2 q := by
  unfold round2
  have : (0 : ℚ) ≤ (roundHalfEven (q * 100) : ℚ) := by
    exact_mod_cast roundHalfEven_nonneg (q * 100) (by positivity)
  positivity

/-- Rounding zero gives zero. -/
theorem round2_zero : round2 0 = 0 := by
  unfold round2 roundHalfEven
  norm_num

/-- `round2` of a rational that is at most 100 is at most 100. -/
theorem round2_le_100 (q : ℚ) (hq : q ≤ 100) : round2 q ≤ 100 := by
  unfold round2
  have h : roundHalfEven (q * 100) ≤ 10000 := by
    apply roundHalfEven_le
    push_cast
    linarith
  have h' : (roundHalfEven (q * 100) : ℚ) ≤ 10000 := by exact_mod_cast h
  linarith

/-- Summing two-decimal roundings of a list moves the sum by at most
1/200 per element. -/
theorem abs_sum_map_round2_sub_le (l : List ℚ) :
    |(l.map round2).sum - l.sum| ≤ (l.length : ℚ) * (1/200) := by
  induction l with
  | nil => simp
  | cons a t ih =>
    simp only [List.map_cons, List.sum_cons, List.length_cons]
    have h1 := abs_round2_sub_le a
    have tri : |round2 a + (t.map round2).sum - (a + t.sum)|
        ≤ |round2 a - a| + |(t.map round2).sum - t.sum| := by
      have : round2 a + (t.map round2).sum - (a + t.sum)
          = (round2 a - a) + ((t.map round2).sum - t.sum) := by ring
      rw [this]
      exact abs_add _ _
    push_cast
    calc |round2 a + (t.map round2).sum - (a + t.sum)|
        ≤ |round2 a - a| + |(t.map round2).sum - t.sum| := tri
      _ ≤ 1/200 + (t.length : ℚ) * (1/200) := by
          exact add_le_add h1 ih
      _ = ((t.length : ℚ) + 1) * (1/200) := by ring

/-- Pulling a common scaling `· * 100 / T` out of a list sum. -/
theorem sum_map_scale_div (l : List ℕ) (T : ℚ) :
    (l.map (fun s : ℕ => (s : ℚ) * 100 / T)).sum = ((l.sum : ℚ)) * 100 / T := by
  induction l with
  | nil => simp
  | cons a t ih =>
    simp only [List.map_cons, List.sum_cons, ih, Nat.cast_add]
    ring

/-- Removing an element at a valid index removes exactly its summand. -/
theorem sum_map_eraseIdx (f : α → ℕ) :
    ∀ (l : List α) (i : Nat) (x : α), l[i]? = some x →
      (l.map f).sum = ((l.eraseIdx i).map f).sum + f x := by
  intro l
  induction l with
  | nil => intro i x h; simp at h
  | cons a t ih =>
    intro i x h
    match i with
    | 0 =>
      simp only [List.getElem?_cons_zero, Option.some.injEq] at h
      subst h
      simp only [List.eraseIdx, List.map_cons, List.sum_cons]
      omega
    | i + 1 =>
      simp only [List.getElem?_cons_succ] at h
      simp only [List.eraseIdx, List.map_cons, List.sum_cons, ih i x h]
      omega

/-- On a successful collection, the statistics list is the per-entry map. -/
theorem collect_language_stats_ok (fs : String → FileAccess) (report : Report)
    (stats : List (String × LangStat))
    (hok : collect_language_stats fs report = Except.ok stats) :
    stats = report.map (statOf fs report) ∧ report ≠ [] := by
  unfold collect_language_stats at hok
  split at hok
  · exact absurd hok (by simp)
  · next h =>
    refine ⟨by injection hok with h'; exact h'.symm, ?_⟩
    intro hnil
    rw [hnil] at h
    simp at h

/-! ### Claims -/

/-- C1: for every extraction directory, the project root chosen by
`_detect_project_root` is the single top-level subdirectory when, after
ignoring `__MACOSX`, exactly one subdirectory and zero loose files are at
the top level; in every other case the chosen root is the extraction
directory itself. -/
theorem claim_C1_root_detection (entries : List Entry) :
    (∀ d : Entry, topSubdirs entries = [d] → topFiles entries = [] →
      detect_project_root entries = RootChoice.subdirectory d) ∧
    ((topSubdirs entries).length ≠ 1 ∨ topFiles entries ≠ [] →
      detect_project_root entries = RootChoice.extractionDir) := by
  constructor
  · intro d h1 h2
    unfold detect_project_root
    rw [h1, h2]
  · intro h
    unfold detect_project_root
    rcases hs : topSubdirs entries with _ | ⟨d, _ | ⟨e, t⟩⟩ <;>
      rcases hf : topFiles entries with _ | ⟨f, t'⟩ <;>
      simp_all

/-- Witness for C1 at concrete directory listings: a lone `project` folder
(next to `__MACOSX`) is chosen, while a folder plus a loose file is not. -/
theorem claim_C1_witness :
    detect_project_root
        [⟨"project", EntryKind.dir⟩, ⟨"__MACOSX", EntryKind.dir⟩] =
      RootChoice.subdirectory ⟨"project", EntryKind.dir⟩ ∧
    detect_project_root
        [⟨"project", EntryKind.dir⟩, ⟨"a.txt", EntryKind.file⟩] =
      RootChoice.extractionDir :=
  ⟨(claim_C1_root_detection _).1 ⟨"project", EntryKind.dir⟩ (by decide) (by decide),
   (claim_C1_root_detection _).2 (Or.inr (by decide))⟩

/-- C3: `_count_lines` returns the number of newline bytes of the content,
computed through the 1-MiB chunked read loop (so in particular the value is
independent of whether the length is a multiple of the chunk size), and the
three caught error cases — missing path, directory, permission denied —
contribute exactly zero. -/
theorem claim_C3_count_lines (bytes : List Nat) :
    count_lines (FileAccess.content bytes) = bytes.count 10 ∧
    count_lines FileAccess.missing = 0 ∧
    count_lines FileAccess.directory = 0 ∧
    count_lines FileAccess.permissionDenied = 0 := by
  refine ⟨?_, rfl, rfl, rfl⟩
  unfold count_lines
  exact chunksOf_sum_count CHUNK (by unfold CHUNK; decide) 10 bytes

/-! ### Concrete fixtures used by the witnesses -/

/-- Example filesystem of the end-to-end scenario of the spec: `main.py`
holds 10 newline bytes and `lib.js` holds 30. -/
def fs1 : String → FileAccess := fun f =>
  if f = "main.py" then FileAccess.content (List.replicate 10 10)
  else if f = "lib.js" then FileAccess.content (List.replicate 30 10)
  else FileAccess.missing

/-- The classifier report of the end-to-end scenario of the spec. -/
def report1 : Report :=
  [("Python", ⟨some 250, some ["main.py"]⟩),
   ("JavaScript", ⟨some 750, some ["lib.js"]⟩)]

/-- The aggregated statistics for `report1` over `fs1`. -/
def stats1 : List (String × LangStat) :=
  report1.map (statOf fs1 report1)

/-- A report with a missing size field and a missing file-list field. -/
def report2 : Report :=
  [("A", ⟨none, some ["x"]⟩), ("B", ⟨some 5, none⟩)]

/-- The aggregated statistics for `report2` over `fs1`. -/
def stats2 : List (String × LangStat) :=
  report2.map (statOf fs1 report2)

/-- A concrete environment whose archive path does not reference a file. -/
def env0 : Env :=
  { zipPath := "missing.zip", zipIsFile := false, zipValid := true,
    entries := [], gitOk := true, proc := ⟨0, "", ""⟩,
    parse := fun _ => none, fs := fun _ => FileAccess.missing, useDocker := false }

/-- A concrete environment that reaches the extraction step and then fails
on a corrupt archive. -/
def env1 : Env :=
  { zipPath := "project.zip", zipIsFile := true, zipValid := false,
    entries := [], gitOk := true, proc := ⟨0, "", ""⟩,
    parse := fun _ => none, fs := fun _ => FileAccess.missing, useDocker := false }

/-- A zero-exit process result. -/
def procOk : ProcResult := ⟨0, "output", ""⟩

/-- A failing process result with captured stderr. -/
def procFail : ProcResult := ⟨2, "", "boom"⟩

/-- C2: on every non-empty classifier report, each language's percentage in
the result equals its reported byte size times 100 divided by the total
(the sum of all reported sizes, replaced by 1 when that sum is 0), rounded
to two decimal places. -/
theorem claim_C2_percentage (fs : String → FileAccess) (report : Report)
    (stats : List (String × LangStat)) (i : Nat) (lang : String) (info : LangInfo)
    (hok : collect_language_stats fs report = Except.ok stats)
    (hr : report[i]? = some (lang, info)) :
    stats[i]?.map (fun p => p.2.percent)
      = some (round2 ((info.size.getD 0 : ℚ) * 100 / (totalOr1 report : ℚ))) := by
  obtain ⟨hstats, -⟩ := collect_language_stats_ok fs report stats hok
  subst hstats
  rw [List.getElem?_map, hr]
  rfl

/-- Witness for C2 on the spec's end-to-end scenario: Python with 250 of
1000 bytes gets percentage `round2 25 = 25`. -/
theorem claim_C2_witness :
    collect_language_stats fs1 report1 = Except.ok stats1 ∧
    report1[0]? = some ("Python", ⟨some 250, some ["main.py"]⟩) ∧
    stats1[0]?.map (fun p => p.2.percent)
      = some (round2 (((LangInfo.mk (some 250) (some ["main.py"])).size.getD 0 : ℚ) * 100
          / (totalOr1 report1 : ℚ))) :=
  ⟨by rfl, rfl,
   claim_C2_percentage fs1 report1 stats1 0 "Python" ⟨some 250, some ["main.py"]⟩ (by rfl) rfl⟩

/-- C4: on every non-empty classifier report, the language names of the
returned mapping are exactly the keys of the report, in order: none is
dropped and none is added. -/
theorem claim_C4_keys (fs : String → FileAccess) (report : Report)
    (stats : List (String × LangStat))
    (hok : collect_language_stats fs report = Except.ok stats) :
    stats.map Prod.fst = report.map Prod.fst := by
  obtain ⟨hstats, -⟩ := collect_language_stats_ok fs report stats hok
  subst hstats
  rw [List.map_map]
  rfl

/-- Witness for C4 on the spec's end-to-end scenario. -/
theorem claim_C4_witness :
    collect_language_stats fs1 report1 = Except.ok stats1 ∧
    stats1.map Prod.fst = report1.map Prod.fst :=
  ⟨by rfl, claim_C4_keys fs1 report1 stats1 (by rfl)⟩

/-- C10: a report entry missing the size field still appears in the result,
with percentage 0 and contributing 0 to the total; an entry missing the
file list still appears, with line count 0. -/
theorem claim_C10_missing_fields (fs : String → FileAccess) (report : Report)
    (stats : List (String × LangStat)) (i : Nat) (lang : String) (info : LangInfo)
    (hok : collect_language_stats fs report = Except.ok stats)
    (hr : report[i]? = some (lang, info)) :
    stats[i]?.map Prod.fst = some lang ∧
    (info.size = none →
      stats[i]?.map (fun p => p.2.percent) = some 0 ∧
      (report.map (fun p => p.2.size.getD 0)).sum
        = ((report.eraseIdx i).map (fun p => p.2.size.getD 0)).sum) ∧
    (info.files = none → stats[i]?.map (fun p => p.2.lines) = some 0) := by
  obtain ⟨hstats, -⟩ := collect_language_stats_ok fs report stats hok
  subst hstats
  rw [List.getElem?_map, hr]
  refine ⟨rfl, ?_, ?_⟩
  · intro hsz
    constructor
    · show some (round2 ((info.size.getD 0 : ℚ) * 100 / (totalOr1 report : ℚ))) = some 0
      rw [hsz]
      simp only [Option.getD_none, Nat.cast_zero, zero_mul, zero_div, round2_zero]
    · rw [sum_map_eraseIdx (fun p => p.2.size.getD 0) report i (lang, info) hr, hsz]
      rfl
  · intro hfl
    show some ((((info.files.getD []).map (fun f => count_lines (fs f))).sum)) = some 0
    rw [hfl]
    rfl

/-- Witness for C10: in `report2`, language `A` lacks a size (percentage 0,
no contribution to the total) and language `B` lacks a file list (0 lines). -/
theorem claim_C10_witness :
    collect_language_stats fs1 report2 = Except.ok stats2 ∧
    (stats2[0]?.map (fun p => p.2.percent) = some 0 ∧
     (report2.map (fun p => p.2.size.getD 0)).sum
       = ((report2.eraseIdx 0).map (fun p => p.2.size.getD 0)).sum) ∧
    stats2[1]?.map (fun p => p.2.lines) = some 0 := by
  refine ⟨by rfl, ?_, ?_⟩
  · exact (claim_C10_missing_fields fs1 report2 stats2 0 "A" ⟨none, some ["x"]⟩
      (by rfl) rfl).2.1 rfl
  · exact (claim_C10_missing_fields fs1 report2 stats2 1 "B" ⟨some 5, none⟩
      (by rfl) rfl).2.2 rfl

/-- C5: when at least one language has nonzero size, the percentages sum to
100 within two-decimal rounding tolerance (1/200 per language), and each
individual percentage lies in [0, 100]. -/
theorem claim_C5_percent_sum (fs : String → FileAccess) (report : Report)
    (stats : List (String × LangStat))
    (hok : collect_language_stats fs report = Except.ok stats)
    (hnz : 0 < (report.map (fun p => p.2.size.getD 0)).sum) :
    |(stats.map (fun p => p.2.percent)).sum - 100| ≤ (stats.length : ℚ) * (1/200) ∧
    ∀ p ∈ stats, 0 ≤ p.2.percent ∧ p.2.percent ≤ 100 := by
  obtain ⟨hstats, -⟩ := collect_language_stats_ok fs report stats hok
  subst hstats
  have hSne : (report.map (fun p => p.2.size.getD 0)).sum ≠ 0 := Nat.pos_iff_ne_zero.mp hnz
  have hT : totalOr1 report = (report.map (fun p => p.2.size.getD 0)).sum := by
    unfold totalOr1
    simp only [if_neg hSne]
  have hTpos : (0:ℚ) < (totalOr1 report : ℚ) := by
    rw [hT]
    exact_mod_cast hnz
  constructor
  · have hmap : (report.map (statOf fs report)).map (fun p => p.2.percent)
        = (report.map
            (fun p => ((p.2.size.getD 0 : ℚ) * 100 / (totalOr1 report : ℚ)))).map round2 := by
      rw [List.map_map, List.map_map]
      rfl
    have hxs : (report.map
          (fun p => ((p.2.size.getD 0 : ℚ) * 100 / (totalOr1 report : ℚ)))).sum
        = (((report.map (fun p => p.2.size.getD 0)).sum : ℕ) : ℚ) * 100
            / (totalOr1 report : ℚ) := by
      rw [← sum_map_scale_div (report.map (fun p => p.2.size.getD 0)) (totalOr1 report : ℚ),
        List.map_map]
      rfl
    have h100 : (((report.map (fun p => p.2.size.getD 0)).sum : ℕ) : ℚ) * 100
        / (totalOr1 report : ℚ) = 100 := by
      rw [hT]
      have hne : (((report.map (fun p => p.2.size.getD 0)).sum : ℕ) : ℚ) ≠ 0 := by
        exact_mod_cast hSne
      rw [mul_comm, mul_div_assoc, div_self hne, mul_one]
    have hb := abs_sum_map_round2_sub_le
      (report.map (fun p => ((p.2.size.getD 0 : ℚ) * 100 / (totalOr1 report : ℚ))))
    rw [hxs, h100] at hb
    rw [hmap]
    simpa only [List.length_map] using hb
  · intro p hp
    rw [List.mem_map] at hp
    obtain ⟨e, he, rfl⟩ := hp
    have hsize_le : e.2.size.getD 0 ≤ (report.map (fun p => p.2.size.getD 0)).sum :=
      List.le_sum_of_mem (List.mem_map_of_mem (fun p => p.2.size.getD 0) he)
    have hle : ((e.2.size.getD 0 : ℕ) : ℚ) ≤ (totalOr1 report : ℚ) := by
      rw [hT]
      exact_mod_cast hsize_le
    constructor
    · show 0 ≤ round2 ((e.2.size.getD 0 : ℚ) * 100 / (totalOr1 report : ℚ))
      apply round2_nonneg
      positivity
    · show round2 ((e.2.size.getD 0 : ℚ) * 100 / (totalOr1 report : ℚ)) ≤ 100
      apply round2_le_100
      rw [div_le_iff₀ hTpos]
      nlinarith [hle, hTpos]

/-- Witness for C5 on the spec's end-to-end scenario. -/
theorem claim_C5_witness :
    collect_language_stats fs1 report1 = Except.ok stats1 ∧
    0 < (report1.map (fun p => p.2.size.getD 0)).sum ∧
    (|(stats1.map (fun p => p.2.percent)).sum - 100| ≤ (stats1.length : ℚ) * (1/200) ∧
     ∀ p ∈ stats1, 0 ≤ p.2.percent ∧ p.2.percent ≤ 100) :=
  ⟨rfl, by decide, claim_C5_percent_sum fs1 report1 stats1 rfl (by decide)⟩

/-- C6: an input path that does not reference an existing regular file makes
`analyze_zip` fail with the not-found error before any extraction: the event
trace is empty, so no temporary directory was created. -/
theorem claim_C6_not_found (env : Env) (h : env.zipIsFile = false) :
    (analyze_zip env).1
      = Except.error (AnalyzeError.fileNotFound ("File not found: " ++ env.zipPath)) ∧
    (analyze_zip env).2 = [] := by
  refine ⟨?_, ?_⟩ <;> simp [analyze_zip, h]

/-- Witness for C6 at a concrete environment without an archive file. -/
theorem claim_C6_witness :
    env0.zipIsFile = false ∧
    ((analyze_zip env0).1
        = Except.error (AnalyzeError.fileNotFound ("File not found: " ++ env0.zipPath)) ∧
     (analyze_zip env0).2 = []) :=
  ⟨rfl, claim_C6_not_found env0 rfl⟩

/-- C7: in both execution modes, a non-zero classifier exit code fails the
analysis with an error message carrying the exit code and the captured
stderr text. -/
theorem claim_C7_nonzero_exit (useDocker : Bool) (r : ProcResult)
    (h : r.returncode ≠ 0) :
    execute_linguist useDocker r = Except.error (AnalyzeError.runtimeError
      ("github-linguist failed with code " ++ toString r.returncode ++ ": " ++ r.stderr)) := by
  unfold execute_linguist
  rw [if_pos h]

/-- Witness for C7 at exit code 2 with stderr "boom", in both modes. -/
theorem claim_C7_witness :
    procFail.returncode ≠ 0 ∧
    execute_linguist true procFail = Except.error (AnalyzeError.runtimeError
      ("github-linguist failed with code " ++ toString procFail.returncode
        ++ ": " ++ procFail.stderr)) ∧
    execute_linguist false procFail = Except.error (AnalyzeError.runtimeError
      ("github-linguist failed with code " ++ toString procFail.returncode
        ++ ": " ++ procFail.stderr)) :=
  ⟨by decide,
   claim_C7_nonzero_exit true procFail (by decide),
   claim_C7_nonzero_exit false procFail (by decide)⟩

/-- C8: report validation fails the analysis when the classifier output is
not parseable or parses to an empty mapping, and a successful analysis never
carries an empty statistics list. -/
theorem claim_C8_report_validation (fs : String → FileAccess)
    (parse : String → Option Report) (useDocker : Bool) (r : ProcResult)
    (h0 : r.returncode = 0) :
    (parse r.stdout = none →
      validate_and_aggregate fs parse useDocker r
        = Except.error AnalyzeError.jsonDecodeError) ∧
    (parse r.stdout = some [] →
      validate_and_aggregate fs parse useDocker r
        = Except.error (AnalyzeError.runtimeError "github-linguist returned empty result")) ∧
    (∀ stats, validate_and_aggregate fs parse useDocker r = Except.ok stats →
      stats ≠ []) := by
  have hexec : execute_linguist useDocker r = Except.ok r.stdout := by
    unfold execute_linguist
    rw [if_neg (by simp [h0])]
  have hrun : run_linguist_breakdown parse useDocker r
      = match parse r.stdout with
        | none => Except.error AnalyzeError.jsonDecodeError
        | some rep => Except.ok rep := by
    unfold run_linguist_breakdown
    rw [hexec]
  refine ⟨?_, ?_, ?_⟩
  · intro hp
    unfold validate_and_aggregate
    rw [hrun, hp]
  · intro hp
    unfold validate_and_aggregate
    rw [hrun, hp]
    rfl
  · intro stats hs
    unfold validate_and_aggregate at hs
    rw [hrun] at hs
    cases hp : parse r.stdout with
    | none =>
      rw [hp] at hs
      have h' : (Except.error AnalyzeError.jsonDecodeError
          : Except AnalyzeError (List (String × LangStat))) = Except.ok stats := hs
      exact Except.noConfusion h'
    | some rep =>
      rw [hp] at hs
      have h' : collect_language_stats fs rep = Except.ok stats := hs
      obtain ⟨hstats, hne⟩ := collect_language_stats_ok fs rep stats h'
      subst hstats
      intro hnil
      exact hne (List.eq_nil_of_map_eq_nil hnil)

/-- Witness for C8: a zero-exit run whose output parses to an empty mapping
fails with the empty-result error. -/
theorem claim_C8_witness :
    validate_and_aggregate (fun _ => FileAccess.missing)
        (fun _ => some ([] : Report)) false procOk
      = Except.error (AnalyzeError.runtimeError "github-linguist returned empty result") :=
  (claim_C8_report_validation (fun _ => FileAccess.missing)
    (fun _ => some ([] : Report)) false procOk rfl).2.1 rfl

/-- C9: whenever `analyze_zip` creates its temporary extraction directory,
the trace it leaves is exactly creation followed by removal — the directory
is removed when the operation returns, on every outcome. -/
theorem claim_C9_cleanup (env : Env)
    (h : Event.tmpdirCreated ∈ (analyze_zip env).2) :
    (analyze_zip env).2 = [Event.tmpdirCreated, Event.tmpdirRemoved] := by
  by_cases hz : env.zipIsFile
  · unfold analyze_zip
    rw [if_neg (by simp [hz])]
  · exfalso
    unfold analyze_zip at h
    rw [if_pos (by simpa using hz)] at h
    simp at h

/-- Witness for C9 at a concrete environment whose analysis fails on a
corrupt archive: the directory is still created and removed. -/
theorem claim_C9_witness :
    Event.tmpdirCreated ∈ (analyze_zip env1).2 ∧
    (analyze_zip env1).2 = [Event.tmpdirCreated, Event.tmpdirRemoved] := by
  have h : Event.tmpdirCreated ∈ (analyze_zip env1).2 := by
    show Event.tmpdirCreated ∈ [Event.tmpdirCreated, Event.tmpdirRemoved]
    exact List.mem_cons_self _ _
  exact ⟨h, claim_C9_cleanup env1 h⟩

end LinguistWrapper
